import Mathlib

/-!
Shallow embedding of the `structvalidator` Go package (validator.go and the
`ValueValidation` engine file) and proofs about its rule parser and
validation engine.

Modelling conventions:
- Go `strings.HasPrefix`, `strings.HasSuffix`, `strings.SplitN(s, " ", -1)`
  and `opt[len(p):]` are modelled by `goHasPrefix`, `goHasSuffix`,
  `goSplitSpace` and `goDrop` over the character list of a `String`.
- Go `regexp` is an external dependency: pattern compilation is modelled by
  an abstract validity oracle `validF : String → Bool`
  (`regexp.MustCompile` panics exactly when the oracle says the pattern is
  invalid), a compiled `*regexp.Regexp` is represented by its source text,
  and matching by an abstract oracle `ms : String → String → Bool`
  (pattern source, subject).
- A Go `panic` is modelled as `Option.none` propagated to the caller.
- Go machine integers: `int`/`int64` values are `Int` (the program only
  compares and stores them; `strconv.Atoi` range failure is modelled with
  an explicit 2^63 bound); the flag words are bitsets of small constants,
  modelled as `Nat` with `&&&`/`|||`.
-/

namespace Structvalidator

/-- Go strings.HasPrefix. -/
def goHasPrefix (s p : String) : Bool := p.data.isPrefixOf s.data

/-- Go strings.HasSuffix. -/
def goHasSuffix (s p : String) : Bool := p.data.isSuffixOf s.data

/-- Split a character list on a separator character, keeping empty parts
(Go strings.Split semantics for a one-character separator). -/
def splitOnChar (sep : Char) : List Char → List (List Char)
  | [] => [[]]
  | c :: cs =>
    let r := splitOnChar sep cs
    if c = sep then [] :: r
    else
      match r with
      | [] => [[c]]
      | h :: t => (c :: h) :: t

/-- Go strings.SplitN(s, " ", -1). -/
def goSplitSpace (s : String) : List String :=
  (splitOnChar ' ' s.data).map fun l => String.mk l

/-- Drop the first n characters (ASCII prefixes only are dropped in this
program, so character count agrees with Go's byte slicing). -/
def goDrop (s : String) (n : Nat) : String := String.mk (s.data.drop n)

/-- Go byte length of a string, `len(s)`. -/
def goLen (s : String) : Nat := s.utf8ByteSize

/-- ASCII decimal digit test, as in Go strconv's number syntax. -/
def isDigitGo (c : Char) : Bool := 48 ≤ c.toNat && c.toNat ≤ 57

/-- Go strconv.Atoi: optional sign, one or more ASCII digits, value within
the 64-bit int range; `none` models a non-nil error. -/
def atoi (s : String) : Option Int :=
  let parts : Int × List Char :=
    match s.data with
    | '-' :: rest => (-1, rest)
    | '+' :: rest => (1, rest)
    | chars => (1, chars)
  let ds := parts.2
  if ds = [] then none
  else if ds.all isDigitGo then
    let n : Int := Int.ofNat (ds.foldl (fun acc c => acc * 10 + (c.toNat - 48)) 0)
    let val := parts.1 * n
    if -(2 ^ 63) ≤ val ∧ val ≤ 2 ^ 63 - 1 then some val else none
  else none

/- Failure flag constants from validator.go (`1 << iota`, iota starting
at 1): FailLenMin = 2, FailLenMax = 4, FailValMin = 8, FailValMax = 16,
FailEmpty = 32, FailRegexp = 64, FailEmail = 128, FailZero = 256. -/

def FailLenMin : Nat := 2

def FailLenMax : Nat := 4

def FailValMin : Nat := 8

def FailValMax : Nat := 16

def FailEmpty : Nat := 32

def FailRegexp : Nat := 64

def FailEmail : Nat := 128

def FailZero : Nat := 256

/- Rule flag constants (`1 << iota`, iota starting at 1):
ValMinNotNil = 2, ValMaxNotNil = 4, Required = 8, Email = 16. -/

def ValMinNotNil : Nat := 2

def ValMaxNotNil : Nat := 4

def Required : Nat := 8

def Email : Nat := 16

/-- The ValueValidation struct: one field's compiled rule. `Regexp` holds
the source text of the compiled pattern (`none` models a nil pointer). -/
structure ValueValidation where
  LenMin : Int
  LenMax : Int
  ValMin : Int
  ValMax : Int
  Regexp : Option String
  Flags : Nat
deriving DecidableEq, Repr

/-- NewValueValidation: length bounds start at -1, everything else at the
Go zero value. -/
def NewValueValidation : ValueValidation :=
  { LenMin := -1, LenMax := -1, ValMin := 0, ValMax := 0, Regexp := none, Flags := 0 }

/-- A reflect.Value restricted to the two type kinds the engine inspects:
values whose type name is "string" and values whose type name starts with
"int". -/
inductive ReflectValue where
  | str : String → ReflectValue
  | int : Int → ReflectValue
deriving DecidableEq, Repr

/-- Whether value.Type().Name() == "string". -/
def ReflectValue.isStringType : ReflectValue → Bool
  | .str _ => true
  | .int _ => false

/-- Whether strings.HasPrefix(value.Type().Name(), "int"). -/
def ReflectValue.isIntType : ReflectValue → Bool
  | .str _ => false
  | .int _ => true

/-- value.String(); only read under an isStringType guard. -/
def ReflectValue.stringVal : ReflectValue → String
  | .str s => s
  | .int _ => ""

/-- value.Int(); only read under an isIntType guard. -/
def ReflectValue.intVal : ReflectValue → Int
  | .str _ => 0
  | .int n => n

/-- Source text of the hard-coded email regexp in ValidateReflectValue. -/
def emailRegexSource : String :=
  "^[a-zA-Z0-9.!#$%&\x27*+\\/=?^_`\x7b|\x7d~-]+@[a-zA-Z0-9](?:[a-zA-Z0-9-]\x7b0,61\x7d[a-zA-Z0-9])?(?:\\.[a-zA-Z0-9](?:[a-zA-Z0-9-]\x7b0,61\x7d[a-zA-Z0-9])?)*$"

/-- ValidateReflectValue: evaluate one rule against one value.  The local
booleans minCanBeZero := v.Flags&ValMinNotNil > 0 and
maxCanBeZero := v.Flags&ValMaxNotNil > 0 from the source are inlined at
their use sites.  Each failing check returns at once with its single
failure flag, exactly as the source's early returns do.  `ms` is the
abstract regexp matching oracle. -/
def ValidateReflectValue (ms : String → String → Bool) (v : ValueValidation)
    (value : ReflectValue) : Bool × Nat :=
  if v.Flags &&& Required > 0 ∧ value.isStringType ∧ value.stringVal = "" then
    (false, FailEmpty)
  else if v.Flags &&& Required > 0 ∧ value.isIntType ∧ value.intVal = 0 ∧
      ¬(v.Flags &&& ValMinNotNil > 0) ∧ ¬(v.Flags &&& ValMaxNotNil > 0) ∧
      v.ValMin = 0 ∧ v.ValMax = 0 then
    (false, FailZero)
  else if value.isStringType ∧ v.LenMin > 0 ∧ (goLen value.stringVal : Int) < v.LenMin then
    (false, FailLenMin)
  else if value.isStringType ∧ v.LenMax > 0 ∧ (goLen value.stringVal : Int) > v.LenMax then
    (false, FailLenMax)
  else if value.isStringType ∧ v.Regexp.isSome ∧ ms (v.Regexp.getD "") value.stringVal = false then
    (false, FailRegexp)
  else if value.isStringType ∧ v.Flags &&& Email > 0 ∧ ms emailRegexSource value.stringVal = false then
    (false, FailEmail)
  else if value.isIntType ∧ (v.ValMin ≠ 0 ∨ v.Flags &&& ValMinNotNil > 0) ∧ v.ValMin > value.intVal then
    (false, FailValMin)
  else if value.isIntType ∧ (v.ValMax ≠ 0 ∨ v.Flags &&& ValMaxNotNil > 0) ∧ v.ValMax < value.intVal then
    (false, FailValMax)
  else
    (true, 0)

/-- The inner loop of setValidationFromTags over
["lenmin", "lenmax", "valmin", "valmax", "regexp"] for one token `opt`.
`validF` is the abstract pattern-validity oracle; an invalid pattern makes
regexp.MustCompile panic, modelled as `none`. -/
def processValOpts (validF : String → Bool) (opt : String) :
    ValueValidation → List String → Option ValueValidation
  | v, [] => some v
  | v, valOpt :: rest =>
    if goHasPrefix opt (valOpt ++ ":") then
      let val := goDrop opt (valOpt ++ ":").length
      if valOpt = "regexp" then
        if validF val then processValOpts validF opt { v with Regexp := some val } rest
        else none
      else
        match atoi val with
        | none => processValOpts validF opt v rest
        | some i =>
          let v :=
            if valOpt = "lenmin" then { v with LenMin := i }
            else if valOpt = "lenmax" then { v with LenMax := i }
            else if valOpt = "valmin" then
              { v with ValMin := i,
                       Flags := if i = 0 then v.Flags ||| ValMinNotNil else v.Flags }
            else if valOpt = "valmax" then
              { v with ValMax := i,
                       Flags := if i = 0 then v.Flags ||| ValMaxNotNil else v.Flags }
            else v
          processValOpts validF opt v rest
    else processValOpts validF opt v rest

/-- One iteration of the token loop in setValidationFromTags. -/
def processToken (validF : String → Bool) (v : ValueValidation) (opt : String) :
    Option ValueValidation :=
  let v := if opt = "req" then { v with Flags := v.Flags ||| Required } else v
  let v := if opt = "email" then { v with Flags := v.Flags ||| Email } else v
  processValOpts validF opt v ["lenmin", "lenmax", "valmin", "valmax", "regexp"]

/-- The token loop of setValidationFromTags. -/
def processTokens (validF : String → Bool) (v : ValueValidation) :
    List String → Option ValueValidation
  | [] => some v
  | opt :: rest =>
    match processToken validF v opt with
    | none => none
    | some v => processTokens validF v rest

/-- setValidationFromTags: split the tag on spaces, process every token,
then unconditionally override the pattern with the non-empty side-channel
tag value. -/
def setValidationFromTags (validF : String → Bool) (v : ValueValidation)
    (tag : String) (tagRegexp : String) : Option ValueValidation :=
  match processTokens validF v (goSplitSpace tag) with
  | none => none
  | some v =>
    if tagRegexp ≠ "" then
      if validF tagRegexp then some { v with Regexp := some tagRegexp } else none
    else some v

/-- setValidationFromSuffix: name-based inference for fields ending in
"Email" or "Price". -/
def setValidationFromSuffix (v : ValueValidation) (fieldName : String) : ValueValidation :=
  let v := if goHasSuffix fieldName "Email" then { v with Flags := v.Flags ||| Email } else v
  if goHasSuffix fieldName "Price" ∧ v.ValMin = 0 ∧ v.ValMax = 0 ∧
      v.Flags &&& ValMinNotNil = 0 ∧ v.Flags &&& ValMaxNotNil = 0 then
    { v with ValMin := 0, Flags := v.Flags ||| ValMinNotNil }
  else v

/-- A rule-text token that setValidationFromTags drops without any effect:
it is not "req" or "email", not a regexp token, and each of the four
numeric-bound prefixes either does not match or carries a suffix that
strconv.Atoi rejects. -/
def badToken (t : String) : Bool :=
  !(t = "req" : Bool) && !(t = "email" : Bool) && !(goHasPrefix t "regexp:") &&
  (!(goHasPrefix t "lenmin:") || (atoi (goDrop t 7)).isNone) &&
  (!(goHasPrefix t "lenmax:") || (atoi (goDrop t 7)).isNone) &&
  (!(goHasPrefix t "valmin:") || (atoi (goDrop t 7)).isNone) &&
  (!(goHasPrefix t "valmax:") || (atoi (goDrop t 7)).isNone)

/-- A struct field as the orchestrator sees it: name, struct tags (an
association list of tag key to tag value, as reflect.StructTag.Get reads
them) and the stored value. Only string- and int-kinded fields occur. -/
structure StructField where
  name : String
  tags : List (String × String)
  value : ReflectValue
deriving DecidableEq, Repr

/-- reflect.StructTag.Get: the empty string when the key is absent. -/
def tagGet (tags : List (String × String)) (key : String) : String :=
  match tags.find? (fun p => p.1 = key) with
  | some p => p.2
  | none => ""

/-- The ValidationOptions struct.  Go maps become association lists; the
RestrictFields set is the list of names mapped to true. -/
structure ValidationOptions where
  RestrictFields : List String
  OverwriteFieldTags : List (String × List (String × String))
  OverwriteTagName : String
  ValidateWhenSuffix : Bool
  OverwriteFieldValues : List (String × ReflectValue)
deriving DecidableEq, Repr

/-- getFieldTagValues: read the main and the side-channel tag of a field,
each possibly overridden by OverwriteFieldTags. -/
def getFieldTagValues (field : StructField) (tagName : String)
    (overwriteFieldTags : List (String × List (String × String))) : String × String :=
  let tagVal := tagGet field.tags tagName
  let tagRegexpVal := tagGet field.tags (tagName ++ "_regexp")
  match overwriteFieldTags.find? (fun p => p.1 = field.name) with
  | none => (tagVal, tagRegexpVal)
  | some pr =>
    let overwriteTags := pr.2
    let tagVal :=
      match overwriteTags.find? (fun p => p.1 = tagName) with
      | some p => p.2
      | none => tagVal
    let tagRegexpVal :=
      match overwriteTags.find? (fun p => p.1 = tagName ++ "_regexp") with
      | some p => p.2
      | none => tagRegexpVal
    (tagVal, tagRegexpVal)

/-- The field loop of Validate, threading the running validity flag and the
invalidFields accumulator; `none` models a panic escaping the loop. -/
def validateFields (validF : String → Bool) (ms : String → String → Bool)
    (options : ValidationOptions) (tagName : String) :
    List StructField → Bool → List (String × Nat) → Option (Bool × List (String × Nat))
  | [], valid, invalidFields => some (valid, invalidFields)
  | field :: rest, valid, invalidFields =>
    if ¬options.RestrictFields.isEmpty ∧ ¬options.RestrictFields.contains field.name then
      validateFields validF ms options tagName rest valid invalidFields
    else
      let tagPair := getFieldTagValues field tagName options.OverwriteFieldTags
      match setValidationFromTags validF NewValueValidation tagPair.1 tagPair.2 with
      | none => none
      | some validation =>
        let validation :=
          if options.ValidateWhenSuffix then setValidationFromSuffix validation field.name
          else validation
        let fieldValue :=
          match options.OverwriteFieldValues.find? (fun p => p.1 = field.name) with
          | some p => p.2
          | none => field.value
        let res := ValidateReflectValue ms validation fieldValue
        if res.1 then validateFields validF ms options tagName rest valid invalidFields
        else validateFields validF ms options tagName rest false
          (invalidFields ++ [(field.name, res.2)])

/-- Validate: nil options panic (`none`), tag-name selection, then the
field loop.  The struct is the list of its string- and int-kinded fields. -/
def Validate (validF : String → Bool) (ms : String → String → Bool)
    (fields : List StructField) (options : Option ValidationOptions) :
    Option (Bool × List (String × Nat)) :=
  match options with
  | none => none
  | some options =>
    let tagName := if options.OverwriteTagName ≠ "" then options.OverwriteTagName else "validation"
    validateFields validF ms options tagName fields true []

/-- Helper: on a string value the engine reduces to the string-category
check chain. -/
lemma eval_str (ms : String → String → Bool) (v : ValueValidation) (s : String) :
    ValidateReflectValue ms v (.str s) =
      if v.Flags &&& Required > 0 ∧ s = "" then (false, FailEmpty)
      else if v.LenMin > 0 ∧ (goLen s : Int) < v.LenMin then (false, FailLenMin)
      else if v.LenMax > 0 ∧ (goLen s : Int) > v.LenMax then (false, FailLenMax)
      else if v.Regexp.isSome ∧ ms (v.Regexp.getD "") s = false then (false, FailRegexp)
      else if v.Flags &&& Email > 0 ∧ ms emailRegexSource s = false then (false, FailEmail)
      else (true, 0) := by
  unfold ValidateReflectValue
  simp only [ReflectValue.isStringType, ReflectValue.isIntType, ReflectValue.stringVal,
    ReflectValue.intVal]
  simp

/-- Helper: on an int value the engine reduces to the required-zero check
followed by the numeric bound chain. -/
lemma eval_int (ms : String → String → Bool) (v : ValueValidation) (x : Int) :
    ValidateReflectValue ms v (.int x) =
      if v.Flags &&& Required > 0 ∧ x = 0 ∧ ¬(v.Flags &&& ValMinNotNil > 0) ∧
          ¬(v.Flags &&& ValMaxNotNil > 0) ∧ v.ValMin = 0 ∧ v.ValMax = 0 then (false, FailZero)
      else if (v.ValMin ≠ 0 ∨ v.Flags &&& ValMinNotNil > 0) ∧ v.ValMin > x then (false, FailValMin)
      else if (v.ValMax ≠ 0 ∨ v.Flags &&& ValMaxNotNil > 0) ∧ v.ValMax < x then (false, FailValMax)
      else (true, 0) := by
  unfold ValidateReflectValue
  simp only [ReflectValue.isStringType, ReflectValue.isIntType, ReflectValue.stringVal,
    ReflectValue.intVal]
  simp

/-- Helper: every evaluation result is one of the nine source-level early
returns. -/
lemma eval_mem_cases (ms : String → String → Bool) (v : ValueValidation) (value : ReflectValue) :
    ValidateReflectValue ms v value ∈
      ([(true, 0), (false, FailEmpty), (false, FailZero), (false, FailLenMin),
        (false, FailLenMax), (false, FailRegexp), (false, FailEmail),
        (false, FailValMin), (false, FailValMax)] : List (Bool × Nat)) := by
  unfold ValidateReflectValue
  split_ifs <;> simp

/-- C2: for every rule with required set, evaluating the empty text value
fails with exactly the single code FailEmpty, returning before any length,
pattern or email check. -/
theorem required_empty_returns_fail_empty (ms : String → String → Bool)
    (v : ValueValidation) (h : v.Flags &&& Required ≠ 0) :
    ValidateReflectValue ms v (.str "") = (false, FailEmpty) := by
  rw [eval_str, if_pos ⟨Nat.pos_of_ne_zero h, rfl⟩]

/-- Witness for C2: a required rule whose length bound would also fail on
the empty string still reports only FailEmpty. -/
theorem required_empty_witness :
    ({ NewValueValidation with Flags := Required, LenMin := 5 } : ValueValidation).Flags &&&
        Required ≠ 0 ∧
      ValidateReflectValue (fun _ _ => true)
        { NewValueValidation with Flags := Required, LenMin := 5 } (.str "") =
        (false, FailEmpty) :=
  ⟨by decide, required_empty_returns_fail_empty _ _ (by decide)⟩

/-- C3: an integer 0 under a required rule with all numeric bounds at their
default fails FailZero; under a required rule whose val_min is explicitly
zero it passes; and any explicitly-zero or non-zero bound prevents the
FailZero code. -/
theorem required_zero_and_rescue :
    (∀ (ms : String → String → Bool) (v : ValueValidation),
      v.Flags &&& Required ≠ 0 → v.ValMin = 0 → v.ValMax = 0 →
      v.Flags &&& ValMinNotNil = 0 → v.Flags &&& ValMaxNotNil = 0 →
      ValidateReflectValue ms v (.int 0) = (false, FailZero)) ∧
    (∀ (ms : String → String → Bool) (v : ValueValidation),
      v.Flags &&& Required ≠ 0 → v.Flags &&& ValMinNotNil ≠ 0 → v.ValMin = 0 →
      v.ValMax = 0 → v.Flags &&& ValMaxNotNil = 0 →
      ValidateReflectValue ms v (.int 0) = (true, 0)) ∧
    (∀ (ms : String → String → Bool) (v : ValueValidation),
      (v.Flags &&& ValMinNotNil ≠ 0 ∨ v.Flags &&& ValMaxNotNil ≠ 0 ∨
        v.ValMin ≠ 0 ∨ v.ValMax ≠ 0) →
      (ValidateReflectValue ms v (.int 0)).2 ≠ FailZero) := by
  refine ⟨?_, ?_, ?_⟩
  · intro ms v h1 h2 h3 h4 h5
    rw [eval_int, if_pos ⟨Nat.pos_of_ne_zero h1, rfl, by omega, by omega, h2, h3⟩]
  · intro ms v h1 h2 h3 h4 h5
    rw [eval_int, if_neg (by rintro ⟨-, -, hmin, -⟩; exact hmin (Nat.pos_of_ne_zero h2)),
      if_neg (by rintro ⟨-, hlt⟩; omega), if_neg (by rintro ⟨hne, hlt⟩; rcases hne with h | h <;> omega)]
  · intro ms v h
    rw [eval_int]
    split_ifs with h1 h2 h3
    · rcases h1 with ⟨-, -, hmin, hmax, hvmin, hvmax⟩
      rcases h with h | h | h | h
      · exact absurd (Nat.pos_of_ne_zero h) hmin
      · exact absurd (Nat.pos_of_ne_zero h) hmax
      · exact absurd hvmin h
      · exact absurd hvmax h
    · decide
    · decide
    · decide

/-- Witness for C3: the concrete required-only rule fails FailZero on 0 and
the required rule with an explicit zero minimum passes 0. -/
theorem required_zero_witness :
    ValidateReflectValue (fun _ _ => true) { NewValueValidation with Flags := Required }
        (.int 0) = (false, FailZero) ∧
      ValidateReflectValue (fun _ _ => true)
        { NewValueValidation with Flags := Required ||| ValMinNotNil } (.int 0) = (true, 0) :=
  ⟨required_zero_and_rescue.1 _ _ (by decide) (by decide) (by decide) (by decide) (by decide),
    required_zero_and_rescue.2.1 _ _ (by decide) (by decide) (by decide) (by decide) (by decide)⟩

/-- C10 counterexample: a rule with required set and the non-zero val_min
-3 accepts the integer 0 outright — evaluate returns pass, not FailValMin,
refuting the claim for non-positive minima. -/
theorem negative_valmin_accepts_zero :
    ValidateReflectValue (fun _ _ => true)
      { NewValueValidation with ValMin := -3, Flags := Required } (.int 0) = (true, 0) := by
  decide

/-- C10 amended: for every rule with required set and a positive val_min,
the integer 0 escapes the FailZero check but fails the minimum check, so
evaluate returns exactly FailValMin. -/
theorem required_positive_valmin_zero (ms : String → String → Bool) (v : ValueValidation)
    (_hreq : v.Flags &&& Required ≠ 0) (hmin : 0 < v.ValMin) :
    ValidateReflectValue ms v (.int 0) = (false, FailValMin) := by
  rw [eval_int, if_neg (by rintro ⟨-, -, -, -, hvmin, -⟩; omega),
    if_pos ⟨Or.inl (by omega), hmin⟩]

/-- Witness for C10's amended claim: required with valmin 5 sends 0 to
FailValMin. -/
theorem required_positive_valmin_witness :
    ValidateReflectValue (fun _ _ => true)
      { NewValueValidation with ValMin := 5, Flags := Required } (.int 0) =
      (false, FailValMin) :=
  required_positive_valmin_zero _ _ (by decide) (by decide)

/-- C1 counterexample: the negation of the claim — no rule and no value
make FailValMin and FailValMax both appear in the failure bitset of a
single evaluate call; the engine's early returns never collect two codes. -/
theorem no_double_valmin_valmax :
    ¬ ∃ (ms : String → String → Bool) (v : ValueValidation) (value : ReflectValue),
        (ValidateReflectValue ms v value).2 &&& FailValMin ≠ 0 ∧
        (ValidateReflectValue ms v value).2 &&& FailValMax ≠ 0 := by
  rintro ⟨ms, v, value, h1, h2⟩
  have h := eval_mem_cases ms v value
  simp only [List.mem_cons, List.mem_singleton, List.not_mem_nil, or_false] at h
  rcases h with h | h | h | h | h | h | h | h | h <;> rw [h] at h1 h2 <;>
    first
    | exact absurd h1 (by decide)
    | exact absurd h2 (by decide)

/-- C1 amended: every evaluate call returns either a pass with an empty
bitset or a failure whose bitset holds exactly one code — all checks are
short-circuited at the first failure, never collected. -/
theorem evaluate_single_code (ms : String → String → Bool) (v : ValueValidation)
    (value : ReflectValue) :
    ValidateReflectValue ms v value = (true, 0) ∨
      ((ValidateReflectValue ms v value).1 = false ∧
        (ValidateReflectValue ms v value).2 ∈
          ([FailLenMin, FailLenMax, FailValMin, FailValMax, FailEmpty, FailRegexp,
            FailEmail, FailZero] : List Nat)) := by
  have h := eval_mem_cases ms v value
  simp only [List.mem_cons, List.mem_singleton, List.not_mem_nil, or_false] at h
  rcases h with h | h | h | h | h | h | h | h | h <;> rw [h] <;> simp

/-- C4 counterexample: with the inverted bounds val_min 10 and val_max 5,
the value 7 does not fire "neither" code — it fires FailValMin, because
7 < 10 and the engine returns at that first failing check. -/
theorem inverted_bounds_fire_valmin :
    ValidateReflectValue (fun _ _ => true)
      { LenMin := -1, LenMax := -1, ValMin := 10, ValMax := 5, Regexp := none, Flags := 0 }
      (.int 7) = (false, FailValMin) := by
  decide

/-- C4 amended: with both bounds set, FailValMin fires iff v < a, and
FailValMax fires iff v > b and v is not below a (the VAL_MIN return comes
first); the two codes never fire together, and 200/10/18 against
valmin 18, valmax 150 give FailValMax, FailValMin, and a pass. -/
theorem val_bounds_eval (ms : String → String → Bool) (a b x : Int) (minEx maxEx : Bool)
    (ha : a ≠ 0 ∨ minEx = true) (hb : b ≠ 0 ∨ maxEx = true) :
    ValidateReflectValue ms
      { LenMin := -1, LenMax := -1, ValMin := a, ValMax := b, Regexp := none,
        Flags := (if minEx then ValMinNotNil else 0) ||| (if maxEx then ValMaxNotNil else 0) }
      (.int x) =
      if x < a then (false, FailValMin)
      else if x > b then (false, FailValMax)
      else (true, 0) := by
  have hreq0 : ((if minEx then ValMinNotNil else 0) |||
      (if maxEx then ValMaxNotNil else 0)) &&& Required = 0 := by
    cases minEx <;> cases maxEx <;> decide
  have ha' : a ≠ 0 ∨ ((if minEx then ValMinNotNil else 0) |||
      (if maxEx then ValMaxNotNil else 0)) &&& ValMinNotNil > 0 := by
    rcases ha with h | h
    · exact Or.inl h
    · right; rw [h]; cases maxEx <;> decide
  have hb' : b ≠ 0 ∨ ((if minEx then ValMinNotNil else 0) |||
      (if maxEx then ValMaxNotNil else 0)) &&& ValMaxNotNil > 0 := by
    rcases hb with h | h
    · exact Or.inl h
    · right; rw [h]; cases minEx <;> decide
  rw [eval_int]
  dsimp only
  rw [if_neg (by rintro ⟨hr, -⟩; omega)]
  by_cases hxa : x < a
  · rw [if_pos ⟨ha', hxa⟩, if_pos hxa]
  · rw [if_neg (by rintro ⟨-, hgt⟩; exact hxa hgt), if_neg hxa]
    by_cases hxb : b < x
    · rw [if_pos ⟨hb', hxb⟩, if_pos hxb]
    · rw [if_neg (by rintro ⟨-, hlt⟩; exact hxb hlt), if_neg hxb]

/-- Witness for C4's amended claim: the three concrete behaviors under the
rule valmin 18, valmax 150. -/
theorem val_bounds_witness :
    ValidateReflectValue (fun _ _ => true)
        { LenMin := -1, LenMax := -1, ValMin := 18, ValMax := 150, Regexp := none,
          Flags := (if false then ValMinNotNil else 0) ||| (if false then ValMaxNotNil else 0) }
        (.int 200) = (false, FailValMax) ∧
      ValidateReflectValue (fun _ _ => true)
        { LenMin := -1, LenMax := -1, ValMin := 18, ValMax := 150, Regexp := none,
          Flags := (if false then ValMinNotNil else 0) ||| (if false then ValMaxNotNil else 0) }
        (.int 10) = (false, FailValMin) ∧
      ValidateReflectValue (fun _ _ => true)
        { LenMin := -1, LenMax := -1, ValMin := 18, ValMax := 150, Regexp := none,
          Flags := (if false then ValMinNotNil else 0) ||| (if false then ValMaxNotNil else 0) }
        (.int 18) = (true, 0) := by
  refine ⟨?_, ?_, ?_⟩
  · rw [val_bounds_eval (fun _ _ => true) 18 150 200 false false (Or.inl (by decide))
      (Or.inl (by decide))]
    norm_num
  · rw [val_bounds_eval (fun _ _ => true) 18 150 10 false false (Or.inl (by decide))
      (Or.inl (by decide))]
    norm_num
  · rw [val_bounds_eval (fun _ _ => true) 18 150 18 false false (Or.inl (by decide))
      (Or.inl (by decide))]
    norm_num

/-- C9: a parsed length bound that is zero or negative enforces nothing:
the engine only applies a length bound strictly greater than 0, so such a
rule never yields the corresponding length code and evaluates exactly like
a rule with that bound unset (the -1 sentinel); and the parser does store
0 or negative literals from lenmin:/lenmax: tokens. -/
theorem nonpositive_len_bounds :
    (∀ (ms : String → String → Bool) (v : ValueValidation) (value : ReflectValue),
      v.LenMin ≤ 0 →
      (ValidateReflectValue ms v value).2 ≠ FailLenMin ∧
        ValidateReflectValue ms v value = ValidateReflectValue ms { v with LenMin := -1 } value) ∧
    (∀ (ms : String → String → Bool) (v : ValueValidation) (value : ReflectValue),
      v.LenMax ≤ 0 →
      (ValidateReflectValue ms v value).2 ≠ FailLenMax ∧
        ValidateReflectValue ms v value = ValidateReflectValue ms { v with LenMax := -1 } value) ∧
    (∀ validF : String → Bool,
      setValidationFromTags validF NewValueValidation "lenmin:0" "" =
        some { NewValueValidation with LenMin := 0 }) ∧
    (∀ validF : String → Bool,
      setValidationFromTags validF NewValueValidation "lenmax:-7" "" =
        some { NewValueValidation with LenMax := -7 }) := by
  refine ⟨?_, ?_, fun _ => rfl, fun _ => rfl⟩
  · intro ms v value h
    cases value with
    | str s =>
      rw [eval_str, eval_str]
      dsimp only
      rw [if_neg (by rintro ⟨-, hlt⟩; omega : ¬(v.LenMin > 0 ∧ (goLen s : Int) < v.LenMin)),
        if_neg (by rintro ⟨-, hlt⟩; omega : ¬((-1 : Int) > 0 ∧ (goLen s : Int) < -1))]
      constructor
      · split_ifs <;> decide
      · rfl
    | int x =>
      rw [eval_int, eval_int]
      constructor
      · split_ifs <;> decide
      · rfl
  · intro ms v value h
    cases value with
    | str s =>
      rw [eval_str, eval_str]
      dsimp only
      rw [if_neg (by rintro ⟨hpos, -⟩; omega : ¬(v.LenMax > 0 ∧ (goLen s : Int) > v.LenMax)),
        if_neg (by rintro ⟨hpos, -⟩; omega : ¬((-1 : Int) > 0 ∧ (goLen s : Int) > -1))]
      constructor
      · split_ifs <;> decide
      · rfl
    | int x =>
      rw [eval_int, eval_int]
      constructor
      · split_ifs <;> decide
      · rfl

/-- Witness for C9: the rule parsed from "lenmin:0" never reports
FailLenMin on a concrete short string and agrees with the unset-bound
rule. -/
theorem nonpositive_len_witness :
    (ValidateReflectValue (fun _ _ => true) { NewValueValidation with LenMin := 0 }
        (.str "x")).2 ≠ FailLenMin ∧
      ValidateReflectValue (fun _ _ => true) { NewValueValidation with LenMin := 0 }
        (.str "x") =
        ValidateReflectValue (fun _ _ => true)
          { { NewValueValidation with LenMin := 0 } with LenMin := -1 } (.str "x") :=
  nonpositive_len_bounds.1 (fun _ _ => true) { NewValueValidation with LenMin := 0 }
    (.str "x") (by decide)

/-- Helper: a name ending in "Price" cannot also end in "Email" (the final
characters differ), so the email branch of the suffix inference is off for
every Price-suffixed name. -/
lemma goHasSuffix_price_not_email (s : String) (h : goHasSuffix s "Price" = true) :
    goHasSuffix s "Email" = false := by
  unfold goHasSuffix at h ⊢
  rw [show ("Price" : String).data = ['P', 'r', 'i', 'c', 'e'] from rfl] at h
  rw [show ("Email" : String).data = ['E', 'm', 'a', 'i', 'l'] from rfl]
  unfold List.isSuffixOf at h ⊢
  rw [show List.reverse ['P', 'r', 'i', 'c', 'e'] = ['e', 'c', 'i', 'r', 'P'] from rfl] at h
  rw [show List.reverse ['E', 'm', 'a', 'i', 'l'] = ['l', 'i', 'a', 'm', 'E'] from rfl]
  cases hrev : s.data.reverse with
  | nil =>
    rw [hrev] at h
    exact absurd h (by decide)
  | cons c cs =>
    rw [hrev] at h
    simp only [List.isPrefixOf, Bool.and_eq_true, beq_iff_eq] at h
    obtain ⟨hc, -⟩ := h
    subst hc
    simp [List.isPrefixOf]

/-- C5: suffix inference for a Price-suffixed field name sets an
explicit-zero minimum exactly when no numeric bound is already set, and a
field named "ListPrice" with empty rule text behaves as if valmin:0 were
present: 0 passes and -5 fails FailValMin. -/
theorem price_suffix_inference :
    (∀ (v : ValueValidation) (name : String), goHasSuffix name "Price" = true →
      setValidationFromSuffix v name =
        if v.ValMin = 0 ∧ v.ValMax = 0 ∧ v.Flags &&& ValMinNotNil = 0 ∧
            v.Flags &&& ValMaxNotNil = 0 then
          { v with ValMin := 0, Flags := v.Flags ||| ValMinNotNil }
        else v) ∧
    (∀ validF : String → Bool,
      setValidationFromTags validF NewValueValidation "" "" = some NewValueValidation) ∧
    (∀ ms : String → String → Bool,
      ValidateReflectValue ms (setValidationFromSuffix NewValueValidation "ListPrice")
          (.int 0) = (true, 0) ∧
        ValidateReflectValue ms (setValidationFromSuffix NewValueValidation "ListPrice")
          (.int (-5)) = (false, FailValMin)) := by
  refine ⟨?_, fun _ => rfl, fun ms => ⟨rfl, rfl⟩⟩
  intro v name h
  have hE := goHasSuffix_price_not_email name h
  unfold setValidationFromSuffix
  rw [hE, h]
  simp

/-- Witness for C5: the characterization applied to the field name
"ListPrice" and a rule that already carries the bound valmin 5 — inference
leaves it untouched. -/
theorem price_suffix_witness :
    goHasSuffix "ListPrice" "Price" = true ∧
      setValidationFromSuffix { NewValueValidation with ValMin := 5 } "ListPrice" =
        { NewValueValidation with ValMin := 5 } :=
  ⟨by decide, by
    rw [price_suffix_inference.1 { NewValueValidation with ValMin := 5 } "ListPrice" (by decide)]
    decide⟩

/-- C6: a non-empty side-channel pattern text always ends up as the
pattern the produced rule was compiled from, overriding any regexp: token
processed before it. -/
theorem side_channel_overrides (validF : String → Bool) (v : ValueValidation)
    (tag pat : String) (r : ValueValidation) (hp : pat ≠ "")
    (h : setValidationFromTags validF v tag pat = some r) :
    r.Regexp = some pat := by
  unfold setValidationFromTags at h
  cases hpt : processTokens validF v (goSplitSpace tag) with
  | none =>
    rw [hpt] at h
    exact Option.noConfusion h
  | some v' =>
    rw [hpt] at h
    dsimp only at h
    rw [if_pos hp] at h
    by_cases hv : validF pat = true
    · rw [if_pos hv] at h
      simp only [Option.some.injEq] at h
      subst h
      rfl
    · rw [if_neg hv] at h
      cases h

/-- Witness for C6: the side-channel pattern "b" overrides the rule-text
pattern "a". -/
theorem side_channel_witness :
    setValidationFromTags (fun _ => true) NewValueValidation "regexp:a" "b" =
        some { NewValueValidation with Regexp := some "b" } ∧
      ({ NewValueValidation with Regexp := some "b" } : ValueValidation).Regexp = some "b" :=
  ⟨by decide, side_channel_overrides (fun _ => true) NewValueValidation "regexp:a" "b"
    { NewValueValidation with Regexp := some "b" } (by decide) (by decide)⟩

/-- Helper: an inner-loop item is skipped — leaving the rule unchanged —
when its prefix does not match, or when it is a numeric item whose suffix
strconv.Atoi rejects. -/
lemma processValOpts_skip_of (validF : String → Bool) (t : String) (v : ValueValidation)
    (valOpt : String) (rest : List String)
    (h : goHasPrefix t (valOpt ++ ":") = false ∨
      (valOpt ≠ "regexp" ∧ atoi (goDrop t (valOpt ++ ":").length) = none)) :
    processValOpts validF t v (valOpt :: rest) = processValOpts validF t v rest := by
  rcases h with h | ⟨hne, hat⟩
  · simp only [processValOpts]
    rw [if_neg (by simp [h])]
  · by_cases hp : goHasPrefix t (valOpt ++ ":") = true
    · simp only [processValOpts]
      rw [if_pos hp, if_neg hne, hat]
    · simp only [processValOpts]
      rw [if_neg hp]

/-- Helper: a bad token has no effect at all on the rule being built. -/
lemma processToken_of_bad (validF : String → Bool) (v : ValueValidation) (t : String)
    (h : badToken t = true) : processToken validF v t = some v := by
  unfold badToken at h
  simp only [Bool.and_eq_true, Bool.not_eq_true', Bool.or_eq_true, Option.isNone_iff_eq_none,
    decide_eq_false_iff_not] at h
  obtain ⟨⟨⟨⟨⟨⟨hreq, hemail⟩, hregexp⟩, hlenmin⟩, hlenmax⟩, hvalmin⟩, hvalmax⟩ := h
  unfold processToken
  simp only [if_neg hreq, if_neg hemail]
  rw [processValOpts_skip_of validF t v "lenmin" _
      (hlenmin.imp id (fun hat => ⟨by decide, hat⟩)),
    processValOpts_skip_of validF t v "lenmax" _
      (hlenmax.imp id (fun hat => ⟨by decide, hat⟩)),
    processValOpts_skip_of validF t v "valmin" _
      (hvalmin.imp id (fun hat => ⟨by decide, hat⟩)),
    processValOpts_skip_of validF t v "valmax" _
      (hvalmax.imp id (fun hat => ⟨by decide, hat⟩)),
    processValOpts_skip_of validF t v "regexp" _ (Or.inl hregexp)]
  rfl

/-- Helper: dropping the bad tokens of a token list does not change the
outcome of the token loop. -/
lemma processTokens_filter_bad (validF : String → Bool) (toks : List String) :
    ∀ v, processTokens validF v toks =
      processTokens validF v (toks.filter fun t => !badToken t) := by
  induction toks with
  | nil => intro v; rfl
  | cons t rest ih =>
    intro v
    by_cases hb : badToken t = true
    · rw [List.filter_cons_of_neg (by simp [hb])]
      simp only [processTokens]
      rw [processToken_of_bad validF v t hb]
      exact ih v
    · rw [List.filter_cons_of_pos (by simp [Bool.eq_false_iff.mpr hb])]
      simp only [processTokens]
      cases hpt : processToken validF v t with
      | none => rfl
      | some v' => exact ih v'

/-- Helper: a regexp token carrying a pattern the compiler rejects panics
regardless of the rule built so far. -/
lemma processToken_regexp_none (validF : String → Bool) (t : String)
    (hreq : t ≠ "req") (hemail : t ≠ "email")
    (h1 : goHasPrefix t "lenmin:" = false) (h2 : goHasPrefix t "lenmax:" = false)
    (h3 : goHasPrefix t "valmin:" = false) (h4 : goHasPrefix t "valmax:" = false)
    (h5 : goHasPrefix t "regexp:" = true) (h6 : validF (goDrop t 7) = false)
    (v : ValueValidation) : processToken validF v t = none := by
  unfold processToken
  simp only [if_neg hreq, if_neg hemail]
  rw [processValOpts_skip_of validF t v "lenmin" _ (Or.inl h1),
    processValOpts_skip_of validF t v "lenmax" _ (Or.inl h2),
    processValOpts_skip_of validF t v "valmin" _ (Or.inl h3),
    processValOpts_skip_of validF t v "valmax" _ (Or.inl h4)]
  simp only [processValOpts]
  rw [(show ("regexp" ++ ":" : String) = "regexp:" from rfl)]
  rw [if_pos h5]
  rw [(show ("regexp:" : String).length = 7 from rfl)]
  rw [if_pos trivial]
  rw [if_neg (by simp [h6])]

/-- Helper: one token that panics for every rule state makes the whole
token loop panic. -/
lemma processTokens_none_of_mem (validF : String → Bool) (t : String)
    (hnone : ∀ v, processToken validF v t = none) (toks : List String)
    (hmem : t ∈ toks) : ∀ v, processTokens validF v toks = none := by
  induction toks with
  | nil => cases hmem
  | cons a rest ih =>
    intro v
    simp only [processTokens]
    rcases List.mem_cons.mp hmem with rfl | hmem'
    · rw [hnone v]
    · cases hpt : processToken validF v a with
      | none => rfl
      | some v' => exact ih hmem' v'

/-- C7: a bad token — unrecognized, or a numeric-bound token whose suffix
is not a parseable integer — never fails the parse and never sets a bound:
it leaves the rule unchanged, and dropping all bad tokens from a rule text
yields the same parse result. -/
theorem bad_tokens_dropped :
    (∀ (validF : String → Bool) (v : ValueValidation) (t : String), badToken t = true →
      processToken validF v t = some v) ∧
    (∀ (validF : String → Bool) (v : ValueValidation) (toks : List String),
      processTokens validF v toks =
        processTokens validF v (toks.filter fun t => !badToken t)) ∧
    (∀ (validF : String → Bool) (v : ValueValidation) (pat tag1 tag2 : String),
      (goSplitSpace tag1).filter (fun t => !badToken t) =
        (goSplitSpace tag2).filter (fun t => !badToken t) →
      setValidationFromTags validF v tag1 pat = setValidationFromTags validF v tag2 pat) := by
  refine ⟨fun validF v t h => processToken_of_bad validF v t h,
    fun validF v toks => processTokens_filter_bad validF toks v, ?_⟩
  intro validF v pat tag1 tag2 h
  unfold setValidationFromTags
  rw [processTokens_filter_bad validF (goSplitSpace tag1) v, h,
    ← processTokens_filter_bad validF (goSplitSpace tag2) v]

/-- Witness for C7: the unrecognized token "bogus" is inert, and the rule
text "req bogus lenmin:xx" parses exactly like "req". -/
theorem bad_tokens_witness :
    badToken "bogus" = true ∧
      processToken (fun _ => true) NewValueValidation "bogus" = some NewValueValidation ∧
      setValidationFromTags (fun _ => true) NewValueValidation "req bogus lenmin:xx" "" =
        setValidationFromTags (fun _ => true) NewValueValidation "req" "" :=
  ⟨by decide, bad_tokens_dropped.1 (fun _ => true) NewValueValidation "bogus" (by decide),
    bad_tokens_dropped.2.2 (fun _ => true) NewValueValidation "" "req bogus lenmin:xx" "req"
      (by decide)⟩

/-- C8: a validation call with nil options aborts with no result at all,
and a malformed pattern — whether supplied as the side-channel pattern
text or as a regexp: token — makes the parse abort with no rule produced;
the concrete Validate run over a field carrying the bad token "regexp:("
likewise yields no partial result. -/
theorem fatal_errors :
    (∀ (validF : String → Bool) (ms : String → String → Bool) (fields : List StructField),
      Validate validF ms fields none = none) ∧
    (∀ (validF : String → Bool) (v : ValueValidation) (tag pat : String),
      pat ≠ "" → validF pat = false → setValidationFromTags validF v tag pat = none) ∧
    (∀ (validF : String → Bool) (v : ValueValidation) (tag pat t : String),
      t ∈ goSplitSpace tag → t ≠ "req" → t ≠ "email" →
      goHasPrefix t "lenmin:" = false → goHasPrefix t "lenmax:" = false →
      goHasPrefix t "valmin:" = false → goHasPrefix t "valmax:" = false →
      goHasPrefix t "regexp:" = true → validF (goDrop t 7) = false →
      setValidationFromTags validF v tag pat = none) ∧
    (Validate (fun p => decide (p ≠ "(")) (fun _ _ => true)
        [{ name := "A", tags := [("validation", "regexp:(")], value := .str "x" }]
        (some { RestrictFields := [], OverwriteFieldTags := [], OverwriteTagName := "",
                ValidateWhenSuffix := false, OverwriteFieldValues := [] }) = none) := by
  refine ⟨fun _ _ _ => rfl, ?_, ?_, by decide⟩
  · intro validF v tag pat hp hv
    unfold setValidationFromTags
    cases hpt : processTokens validF v (goSplitSpace tag) with
    | none => rfl
    | some v' =>
      dsimp only
      rw [if_pos hp, if_neg (by simp [hv])]
  · intro validF v tag pat t hmem hreq hemail h1 h2 h3 h4 h5 h6
    unfold setValidationFromTags
    rw [processTokens_none_of_mem validF t
      (processToken_regexp_none validF t hreq hemail h1 h2 h3 h4 h5 h6)
      (goSplitSpace tag) hmem v]

/-- Witness for C8: a bad side-channel pattern and a bad regexp: token
each abort the parse with no rule. -/
theorem fatal_errors_witness :
    setValidationFromTags (fun _ => false) NewValueValidation "x" "(" = none ∧
      setValidationFromTags (fun p => decide (p ≠ "(")) NewValueValidation "regexp:(" "" =
        none :=
  ⟨fatal_errors.2.1 (fun _ => false) NewValueValidation "x" "(" (by decide) (by decide),
    fatal_errors.2.2.1 (fun p => decide (p ≠ "(")) NewValueValidation "regexp:(" "" "regexp:("
      (by decide) (by decide) (by decide) (by decide) (by decide) (by decide) (by decide)
      (by decide) (by decide)⟩

end Structvalidator
